import Mathlib

/-!
# q / q-io : promise chains, the UDP receiver and the socket helpers

A shallow embedding of

* `libs/q-io/src/impl/udp_receiver.cpp` (construct, attach_dispatcher, close,
  start_read with its read callback, stop_read, detach, closer),
* `libs/q-io/src/socket_helpers.hpp` (connect),
* the promise engine exercised by `tests/q/src/promise/then.cpp`,

followed by the properties proved about them.  All definitions come first, the
theorems follow.
-/

set_option autoImplicit false

namespace q
namespace io

/-! ## Plain data used by the receiver -/

/-- Number of values of `std::size_t` (LP64 target: 64 bits). -/
def SIZE_MOD : Nat := 2 ^ 64

/-- The value `std::numeric_limits< std::size_t >::max( )`. -/
def SIZE_MAX : Nat := SIZE_MOD - 1

/-- Unsigned `std::size_t` subtraction, wrapping modulo `SIZE_MOD`. -/
def size_sub (a b : Nat) : Nat := (a % SIZE_MOD + SIZE_MOD - b % SIZE_MOD) % SIZE_MOD

/-- Exceptions the receiver can hand over. -/
inductive exception_ptr
  | udp_packet_error
  | other (code : Nat)
  deriving DecidableEq, Repr

/-- Modelled from the spec: the `q::expect< T >` holder (its declaration is not
among the sources), a "payload-or-error" built by `q::fulfill` and `q::refuse`. -/
inductive expect (α : Type)
  | fulfill (value : α)
  | refuse (e : exception_ptr)
  deriving DecidableEq, Repr

/-- Modelled from the spec: the test `has_exception( )` of an `expect`. -/
def expect.has_exception {α : Type} : expect α → Bool
  | .fulfill _ => false
  | .refuse _ => true

/-- Modelled from the spec: the exception held by an `expect`, when there is one. -/
def expect.exception {α : Type} : expect α → Option exception_ptr
  | .fulfill _ => none
  | .refuse e => some e

/-- Modelled from the spec: the OS `sockaddr` (its declaration is an OS header):
a host and a port. -/
structure sockaddr where
  host : Nat
  port : Nat
  deriving DecidableEq, Repr

/-- Modelled from the spec: `ip_address` (q-io/ip.hpp is not among the sources),
"a value type with conversion to/from the OS sockaddr". -/
structure ip_address where
  host : Nat
  deriving DecidableEq, Repr

/-- Modelled from the spec: `ip_address::from( addr )`, the conversion from an OS
`sockaddr`. -/
def ip_address.from (addr : sockaddr) : ip_address := ⟨addr.host⟩

/-- Modelled from the spec: `ip_address::get_sockaddr( port )`, the conversion to
an OS `sockaddr`. -/
def ip_address.get_sockaddr (ip : ip_address) (port : Nat) : sockaddr := ⟨ip.host, port⟩

/-- Modelled from the spec: `q::byte_block` (q/block.hpp is not among the
sources): the bytes of a block. -/
structure byte_block where
  bytes : List Nat
  deriving DecidableEq, Repr

/-- Modelled from the spec: the default constructed `q::byte_block( )`, a block
without bytes. -/
def byte_block.empty : byte_block := ⟨[]⟩

/-- Modelled from the spec: `q::byte_block( size, data )`, the block of `size`
bytes that starts at `data`. -/
def byte_block.of (size : Nat) (data : List Nat) : byte_block := ⟨data.take size⟩

/-- Modelled from the spec: the number of bytes of a block. -/
def byte_block.size (b : byte_block) : Nat := b.bytes.length

/-- Modelled from the spec: `udp_packet = { payload-or-error, source-address,
flags }` (its declaration is not among the sources). -/
structure udp_packet where
  payload : expect byte_block
  source_address : ip_address
  flags : Nat
  deriving DecidableEq, Repr

/-- The libuv buffer handed to the read callback: `base` is `none` for a null
pointer and otherwise the memory that starts there. -/
structure uv_buf_t where
  base : Option (List Nat)
  len : Nat
  deriving DecidableEq, Repr

/-- Modelled from the spec: `q::backlog` (its declaration is not among the
sources), seen through the two accessors `construct` calls. -/
structure backlog where
  get : Nat
  is_infinity : Bool
  deriving DecidableEq, Repr

/-- Modelled from the spec: the `udp_bind` flag set ("flags (ipv6-only,
reuseaddr)"; its declaration is not among the sources). -/
structure udp_bind where
  ip_v6_only : Bool
  reuseaddr : Bool
  deriving DecidableEq, Repr

/-- Modelled from the spec: the option set `udp_receive_options`,
"{ip_address bind_to, flags (ipv6-only, reuseaddr), backlog}". -/
structure udp_receive_options where
  bind_to : Option ip_address
  bind_flags : udp_bind
  backlog : Option backlog
  deriving DecidableEq, Repr

/-- libuv flag `UV_UDP_IPV6ONLY`. -/
def UV_UDP_IPV6ONLY : Nat := 1

/-- libuv flag `UV_UDP_REUSEADDR`. -/
def UV_UDP_REUSEADDR : Nat := 4

/-! ## The channel -/

/-- The callbacks that the receiver registers as resume notification: the lambda
built in `stop_read`, which locks the weak self pointer and calls `start_read`. -/
inductive resume_callback
  | restart_read
  deriving DecidableEq, Repr

/-- The scoped functions that the receiver registers: the `scope` lambda built in
`detach`. -/
inductive scoped_function
  | detach_scope
  deriving DecidableEq, Repr

/-- Modelled from the spec: `q::channel< udp_packet >` (q/channel.hpp is not among
the sources): "bounded buffer (soft limit = high-water, resume threshold =
low-water), closed-flag, optional close-error, resume-notification slot", the
readers waiting for a value with the values handed to them, and the scopes kept
until the channel closes. -/
structure channel where
  queue : Nat
  high_water : Nat
  low_water : Nat
  buffer : List udp_packet
  waiting_readers : Nat
  handed_over : List udp_packet
  closed : Bool
  close_error : Option exception_ptr
  resume : Option (resume_callback × Bool)
  scopes : List scoped_function
  deriving DecidableEq, Repr

/-- Modelled from the spec: the constructor `channel( queue, buffer_count,
resume_count )`, an open empty channel with the two limits. -/
def channel.create (queue high low : Nat) : channel :=
  { queue := queue, high_water := high, low_water := low, buffer := [],
    waiting_readers := 0, handed_over := [], closed := false, close_error := none,
    resume := none, scopes := [] }

/-- Modelled from the spec: "`should_write()` is false once buffered count ≥
high-water". -/
def channel.should_write (ch : channel) : Bool := decide (ch.buffer.length < ch.high_water)

/-- Modelled from the spec: the effect of `write(v)`: "every write either succeeds
(buffered or handed directly to a waiting reader) or, if closed, fails". -/
def channel.push (ch : channel) (v : udp_packet) : channel :=
  if ch.closed then ch
  else if 0 < ch.waiting_readers then
    { ch with waiting_readers := ch.waiting_readers - 1, handed_over := ch.handed_over ++ [v] }
  else { ch with buffer := ch.buffer ++ [v] }

/-- Modelled from the spec: "`write(v)` returns true if `should_write()` was true
before the call (i.e., buffer had room); false otherwise — the write still
succeeds unless closed, but signals back-pressure". -/
def channel.write (ch : channel) (v : udp_packet) : Bool × channel :=
  (ch.should_write, ch.push v)

/-- Modelled from the spec: "`set_resume_notification(callback, once)` registers
callback" in the resume-notification slot. -/
def channel.set_resume_notification (ch : channel) (cb : resume_callback) (once : Bool) :
    channel :=
  { ch with resume := some (cb, once) }

/-- Modelled from the spec: "`unset_resume_notification()` clears it". -/
def channel.unset_resume_notification (ch : channel) : channel :=
  { ch with resume := none }

/-- Modelled from the spec: "`close()` and `close(err)` are terminal": an open
channel becomes closed, with the error when one is given; a closed one stays as
it is. -/
def channel.close (ch : channel) (err : Option exception_ptr) : channel :=
  if ch.closed then ch else { ch with closed := true, close_error := err }

/-- Modelled from the spec: `add_scope_until_closed( scope )` of the readable end
(not described further): the channel keeps the scope. -/
def channel.add_scope_until_closed (ch : channel) (s : scoped_function) : channel :=
  { ch with scopes := ch.scopes ++ [s] }

/-- Modelled from the spec: all packets a channel has accepted, those handed to
readers and those still buffered. -/
def channel.accepted (ch : channel) : List udp_packet := ch.handed_over ++ ch.buffer

/-! ## The receiver -/

/-- What a `std::shared_ptr` to a channel end held by the receiver points to:
nothing (after `reset( )`), an end of the channel made by `construct`, or the
default-constructed end that the `scope` lambda of `detach` stores. -/
inductive end_ref
  | null
  | channel
  | fresh
  deriving DecidableEq, Repr

/-- The calls the receiver makes on libuv, on its channel ends and on the heap,
in the order it makes them. -/
inductive call
  | uv_udp_init
  | uv_udp_bind (addr : sockaddr) (flags : Nat)
  | uv_udp_recv_start
  | uv_udp_recv_stop
  | uv_close
  | write (packet : udp_packet)
  | should_write
  | set_resume_notification (cb : resume_callback) (once : Bool)
  | unset_resume_notification
  | close (err : Option exception_ptr)
  | add_scope_until_closed (s : scoped_function)
  | delete_buffer
  deriving DecidableEq, Repr

/-- The default arguments of `close` and `stop_read`, which are declared in
`udp_receiver.hpp` (not among the sources) and therefore taken as parameters. -/
structure defaults where
  close_status : expect Unit
  stop_read_reschedule : Bool
  deriving DecidableEq, Repr

/-- The state of `udp_receiver::pimpl`: its members, the channel both ends refer
to, whether `udp_.data` holds the reference installed by `attach_dispatcher`, and
the calls made so far. -/
structure pimpl where
  closed_ : Bool
  detached_ : Bool
  is_infinite_ : Bool
  port_ : Nat
  construction_options_ : Option udp_receive_options
  readable_in_ : end_ref
  writable_in_ : end_ref
  ch : channel
  udp_data : Bool
  trace : List call
  deriving DecidableEq, Repr

/-- Record one call. -/
def pimpl.emit (p : pimpl) (c : call) : pimpl := { p with trace := p.trace ++ [c] }

/-- Whether the OS delivers datagrams after the calls of a trace: the last of
`uv_udp_recv_start` / `uv_udp_recv_stop` decides. -/
def receiving (t : List call) : Bool :=
  t.foldl (fun r c =>
    match c with
    | .uv_udp_recv_start => true
    | .uv_udp_recv_stop => false
    | _ => r) false

/-- Number of `uv_close` calls in a trace. -/
def uv_close_count (t : List call) : Nat := t.count call.uv_close

/-- The packets passed to `write` in a trace, in order. -/
def written (t : List call) : List udp_packet :=
  t.filterMap (fun c =>
    match c with
    | .write p => some p
    | _ => none)

/-- The resume notifications and scopes registered in a trace, in order. -/
def registrations (t : List call) : List call :=
  t.filter (fun c =>
    match c with
    | .set_resume_notification _ _ => true
    | .add_scope_until_closed _ => true
    | _ => false)

/-- The function `udp_receiver::pimpl::construct` (the queue is the user queue
the channel is bound to). -/
def pimpl.construct (user_queue : Nat) (port : Nat) (options : udp_receive_options) : pimpl :=
  let bl : Nat := SIZE_MAX
  let r : Nat × Bool :=
    match options.backlog with
    | some backlog => (max (backlog.get % SIZE_MOD) 1, backlog.is_infinity)
    | none => (bl, true)
  let bl := r.1
  { closed_ := false, detached_ := false, is_infinite_ := r.2, port_ := port,
    construction_options_ := some options,
    readable_in_ := end_ref.channel, writable_in_ := end_ref.channel,
    ch := channel.create user_queue bl (size_sub bl 1),
    udp_data := false, trace := [] }

/-- The function `udp_receiver::pimpl::start_read`: hands the two callbacks to
`uv_udp_recv_start`. -/
def pimpl.start_read (p : pimpl) : pimpl := p.emit call.uv_udp_recv_start

/-- The function `udp_receiver::pimpl::stop_read`. A result `none` stands for a
call through a null pointer or on an end without a channel. -/
def pimpl.stop_read (p : pimpl) (reschedule : Bool) : Option pimpl :=
  let p := p.emit call.uv_udp_recv_stop
  if !reschedule then some p
  else
    match p.writable_in_ with
    | end_ref.channel =>
      some ({ p with ch := p.ch.set_resume_notification resume_callback.restart_read true }.emit
        (call.set_resume_notification resume_callback.restart_read true))
    | _ => none

/-- The function `udp_receiver::pimpl::attach_dispatcher`. A result `none` stands
for the use of construction options that are already released. -/
def pimpl.attach_dispatcher (p : pimpl) : Option pimpl :=
  match p.construction_options_ with
  | none => none
  | some options =>
    let p := { p with udp_data := true }
    let p := p.emit call.uv_udp_init
    let bind_to := options.bind_to.getD ⟨0⟩
    let bind_flags := options.bind_flags
    let sa := bind_to.get_sockaddr p.port_
    let flags : Nat := 0
      ||| (if bind_flags.ip_v6_only then UV_UDP_IPV6ONLY else 0)
      ||| (if bind_flags.reuseaddr then UV_UDP_REUSEADDR else 0)
    let p := p.emit (call.uv_udp_bind sa flags)
    let p := { p with construction_options_ := none }
    some p.start_read

/-- The function `udp_receiver::pimpl::close`. A result `none` stands for a call
through a null pointer or on an end without a channel. -/
def pimpl.close (d : defaults) (p : pimpl) (status : expect Unit) : Option pimpl :=
  if p.closed_ then some p
  else
    let p := { p with closed_ := true }
    let after_channel : Option pimpl :=
      match p.writable_in_ with
      | end_ref.null => some p
      | end_ref.channel =>
        let p := { p with ch := p.ch.unset_resume_notification }.emit
          call.unset_resume_notification
        if status.has_exception then
          some ({ p with ch := p.ch.close status.exception }.emit (call.close status.exception))
        else
          some ({ p with ch := p.ch.close none }.emit (call.close none))
      | end_ref.fresh => none
    match after_channel with
    | none => none
    | some p =>
      match p.stop_read d.stop_read_reschedule with
      | none => none
      | some p =>
        let p := { p with writable_in_ := end_ref.null }
        some (p.emit call.uv_close)

/-- The packet built by the read callback from `nread`, the buffer and the
source address. -/
def make_packet (nread : Int) (buf : uv_buf_t) (addr : sockaddr) : udp_packet :=
  let data : List Nat := buf.base.getD []
  { payload :=
      if nread < 0 then expect.refuse exception_ptr.udp_packet_error
      else expect.fulfill
        (if nread = 0 then byte_block.empty else byte_block.of nread.toNat data),
    source_address := ip_address.from addr,
    flags := 0 }

/-- The read callback `read_cb` that `start_read` hands to libuv. A result
`none` stands for a call through a null pointer (`udp->data`, `writable_in_`) or
on an end without a channel. -/
def pimpl.read_cb (p : pimpl) (nread : Int) (buf : uv_buf_t) (addr : Option sockaddr)
    (_flags : Nat) : Option pimpl :=
  if !p.udp_data then none
  else
    match addr with
    | some a =>
      let packet := make_packet nread buf a
      match p.writable_in_ with
      | end_ref.channel =>
        let w := p.ch.write packet
        let p := { p with ch := w.2 }.emit (call.write packet)
        if !w.1 then p.stop_read false
        else if !p.is_infinite_ then
          let p := p.emit call.should_write
          if !p.ch.should_write then p.stop_read true
          else some p
        else some p
      | _ => none
    | none =>
      if buf.base.isSome then some (p.emit call.delete_buffer) else some p

/-- The function `udp_receiver::pimpl::detach`. A result `none` stands for a call
through a null pointer or on an end without a channel. -/
def pimpl.detach (p : pimpl) : Option pimpl :=
  if p.detached_ then some p
  else
    let p := { p with detached_ := true }
    match p.readable_in_ with
    | end_ref.channel =>
      some ({ p with ch := p.ch.add_scope_until_closed scoped_function.detach_scope }.emit
        (call.add_scope_until_closed scoped_function.detach_scope))
    | _ => none

/-- The `scope` lambda of `detach`, run when the scoped function is released: it
stores two default-constructed ends and calls `close( )`. -/
def pimpl.scope (d : defaults) (p : pimpl) : Option pimpl :=
  let p := { p with writable_in_ := end_ref.fresh, readable_in_ := end_ref.fresh }
  pimpl.close d p d.close_status

/-- The resume callback registered by `stop_read`: the receiver is alive, so the
weak pointer locks and `start_read` is called. -/
def pimpl.resume (p : pimpl) : resume_callback → pimpl
  | resume_callback.restart_read => p.start_read

/-- The function `closer` given to `uv_close`: clears `socket->data` and deletes
the reference. -/
def pimpl.closer (p : pimpl) : pimpl := { p with udp_data := false }

/-- Operations on a receiver: the member functions and the callbacks libuv and
the channel may run. -/
inductive op
  | attach_dispatcher
  | close (status : expect Unit)
  | read_cb (nread : Int) (buf : uv_buf_t) (addr : Option sockaddr) (flags : Nat)
  | detach
  | scope
  | resume (cb : resume_callback)
  | closer
  deriving DecidableEq, Repr

/-- Run one operation. -/
def pimpl.step (d : defaults) (p : pimpl) : op → Option pimpl
  | op.attach_dispatcher => p.attach_dispatcher
  | op.close status => pimpl.close d p status
  | op.read_cb nread buf addr flags => p.read_cb nread buf addr flags
  | op.detach => p.detach
  | op.scope => pimpl.scope d p
  | op.resume cb => some (p.resume cb)
  | op.closer => some p.closer

/-- Run a sequence of operations, stopping at the first undefined one. -/
def pimpl.run (d : defaults) (p : pimpl) : List op → Option pimpl
  | [] => some p
  | o :: os =>
    match pimpl.step d p o with
    | none => none
    | some p1 => pimpl.run d p1 os

/-! ## Socket helpers -/

/-- The helper `connect( socket, addr )` of socket_helpers.hpp: `os_connect` is
the OS call, giving its return value and the value of `errno` after it;
`EINPROGRESS` is the OS constant. -/
def connect (EINPROGRESS : Int) (os_connect : Nat → sockaddr → Int × Int)
    (socket : Nat) (addr : sockaddr) : Bool × Int :=
  let r := os_connect socket addr
  let ret := r.1
  let errno := r.2
  if ret ≠ 0 ∧ (ret ≠ -1 ∨ errno ≠ EINPROGRESS) then (false, errno)
  else (true, 0)

/-! ## Properties and sample values used by the theorems -/

/-- The number of `uv_close` calls matches the closed flag: none while the
receiver is open, one once it is closed. -/
def close_invariant (p : pimpl) : Prop :=
  uv_close_count p.trace = if p.closed_ then 1 else 0

/-- Options with a backlog of one packet. -/
def sample_options : udp_receive_options :=
  { bind_to := none, bind_flags := { ip_v6_only := false, reuseaddr := true },
    backlog := some { get := 1, is_infinity := false } }

/-- The default arguments: `close( )` without an exception, `stop_read( )`
without rescheduling. -/
def sample_defaults : defaults :=
  { close_status := expect.fulfill (), stop_read_reschedule := false }

/-- A receiver made by `construct` on port 9000 with a backlog of one packet and
attached to a dispatcher: its channel is open and empty, the OS delivers
datagrams. -/
def sample_receiver : pimpl :=
  ((pimpl.construct 0 9000 sample_options).attach_dispatcher).getD
    (pimpl.construct 0 9000 sample_options)

/-- A receive buffer of four bytes. -/
def sample_buf : uv_buf_t := { base := some [10, 20, 30, 40], len := 4 }

/-- A source address. -/
def sample_addr : sockaddr := { host := 7, port := 4000 }

end io
end q

/-! ## The promise engine

The sources hold only the tests of the promise engine (`then.cpp`); the engine
itself is modelled from the specification. -/

namespace q

/-- Modelled from the spec: the values the promises of `then.cpp` carry, an
integer (`int`, `long`) or a `std::string` given by its character codes. -/
inductive value
  | int (n : Int)
  | str (s : List Int)
  deriving DecidableEq, Repr

/-- Modelled from the spec: the failures of the error taxonomy a chain can carry:
a type error of the dynamic tuple adaptation, or an error raised by a user
continuation. -/
inductive error
  | type_error
  | user (code : Nat)
  deriving DecidableEq, Repr

/-- Modelled from the spec: what a continuation is invoked with: "a continuation
declared with n parameters receives the unpacked tuple, while one declared with a
single tuple parameter receives it whole". -/
inductive arguments
  | unpacked (values : List value)
  | whole (tuple : List value)
  deriving DecidableEq, Repr

/-- Modelled from the spec: what a continuation hands back: a value, nothing
(`void`), the promise `with( queue, values... )` made inside it, a promise that
exists already, or a raised error. -/
inductive outcome
  | value (v : value)
  | nothing
  | promise_with (queue : Nat) (values : List value)
  | promise (id : Nat)
  | raise (e : error)
  deriving DecidableEq, Repr

/-- Modelled from the spec: a declared parameter `Aᵢ` of a continuation, given by
what it accepts: a single value, or a whole tuple. -/
inductive param
  | single (accepts : value → Bool)
  | tuple (accepts : List value → Bool)

/-- Modelled from the spec: a continuation, "a user callable bound to run when an
antecedent promise resolves": its declared parameters and its body. -/
structure continuation where
  params : List param
  body : arguments → outcome

/-- Modelled from the spec: whether a value `Tᵢ` is convertible to the parameter
`Aᵢ` of the tuple adaptation rule; a single value is never a whole tuple. -/
def param.convertible : param → value → Bool
  | param.single accepts, v => accepts v
  | param.tuple _, _ => false

/-- Modelled from the spec: rule 1 of the tuple adaptation, "m == n and each Tᵢ is
convertible to Aᵢ". -/
def convertible_all : List param → List value → Bool
  | [], [] => true
  | a :: as, v :: vs => a.convertible v && convertible_all as vs
  | _, _ => false

/-- Modelled from the spec: the tuple adaptation rule: "1. If m == n and each Tᵢ is
convertible to Aᵢ, invoke with unpacked arguments. 2. Else if m == 1 and A₁
accepts the whole tuple, invoke with the tuple. 3. Else reject ... with a type
error (dynamic binding)"; `none` is the type error. -/
def adapt (params : List param) (values : List value) : Option arguments :=
  if convertible_all params values then some (arguments.unpacked values)
  else
    match params with
    | [param.tuple accepts] =>
      if accepts values then some (arguments.whole values) else none
    | _ => none

/-- Modelled from the spec: the state machine of a promise: "pending,
fulfilled(T), or rejected(error)". -/
inductive resolution
  | pending
  | fulfilled (values : List value)
  | rejected (e : error)
  deriving DecidableEq, Repr

/-- Modelled from the spec: a waiter of a promise: a continuation registered by
`then` together with the promise it resolves, or the forwarding of the
resolution to the promise a flattened chain resolves. -/
inductive waiter
  | call (label : Nat) (c : continuation) (target : Nat)
  | forward (target : Nat)

/-- Modelled from the spec: the shared state of a promise: the queue its
continuations run on, its state and its waiters. -/
structure shared_state where
  queue : Nat
  state : resolution
  waiters : List waiter

/-- Modelled from the spec: a task, "a unit of deferred work": the call of a
continuation with the values of its antecedent, or the settling of a promise. -/
inductive task
  | invoke (label : Nat) (c : continuation) (values : List value) (target : Nat)
  | settle (target : Nat) (r : resolution)

/-- Modelled from the spec: the record the spy of the tests (`EXPECT_CALL_WRAPPER`,
not among the sources) keeps of one call of a continuation: which continuation,
on which queue, with which arguments. -/
structure invocation where
  label : Nat
  queue : Nat
  args : arguments
  deriving DecidableEq, Repr

/-- Modelled from the spec: the runtime: the promises made so far, the posted
tasks with their queue in posting order, and the calls seen by the spy. -/
structure world where
  next : Nat
  promises : Nat → Option shared_state
  tasks : List (Nat × task)
  calls : List invocation

/-- Modelled from the spec: the runtime in which nothing has happened. -/
def world.empty : world :=
  { next := 0, promises := fun _ => none, tasks := [], calls := [] }

/-- Modelled from the spec: store the shared state of promise `id`. -/
def world.store (w : world) (id : Nat) (s : shared_state) : world :=
  { w with promises := fun i => if i = id then some s else w.promises i }

/-- Modelled from the spec: "`post(task)` appends a task" to a queue. -/
def world.post (w : world) (queue : Nat) (t : task) : world :=
  { w with tasks := w.tasks ++ [(queue, t)] }

/-- Modelled from the spec: the task that serves a waiter once its promise has the
resolution `r`: a fulfilment calls the continuation; "a rejection propagates to downstream
value-handlers by skipping them"; a forward hands the resolution on. -/
def waiter.task (r : resolution) : waiter → task
  | waiter.call label c target =>
    match r with
    | resolution.fulfilled values => task.invoke label c values target
    | other => task.settle target other
  | waiter.forward target => task.settle target r

/-- Modelled from the spec: post the tasks of a list of waiters on a queue, in
order. -/
def world.notify (w : world) (queue : Nat) (r : resolution) : List waiter → world
  | [] => w
  | x :: xs => world.notify (w.post queue (x.task r)) queue r xs

/-- Modelled from the spec: the terminal transition of a promise: "exactly one
terminal state; once set it is immutable"; "all (waiters) are scheduled on their
respective queues when the state becomes terminal". -/
def world.resolve (w : world) (id : Nat) (r : resolution) : world :=
  match r with
  | resolution.pending => w
  | _ =>
    match w.promises id with
    | none => w
    | some s =>
      match s.state with
      | resolution.pending =>
        world.notify (w.store id { s with state := r, waiters := [] }) s.queue r s.waiters
      | _ => w

/-- Modelled from the spec: register a waiter on a promise: kept while the promise
is pending, posted as a task when it is terminal already ("it is always posted, even if the antecedent
is already fulfilled"). -/
def world.subscribe (w : world) (id : Nat) (x : waiter) : world :=
  match w.promises id with
  | none => w
  | some s =>
    match s.state with
    | resolution.pending => w.store id { s with waiters := s.waiters ++ [x] }
    | r => w.post s.queue (x.task r)

/-- Modelled from the spec: make a promise with a given state on a queue. -/
def world.fresh (w : world) (queue : Nat) (state : resolution) : Nat × world :=
  (w.next, { w.store w.next ⟨queue, state, []⟩ with next := w.next + 1 })

/-- Modelled from the spec: "`with(queue, v₁, …, vₙ)` → an already-fulfilled
promise carrying a tuple; its continuations will run on queue". -/
def with_ (w : world) (queue : Nat) (values : List value) : Nat × world :=
  w.fresh queue (resolution.fulfilled values)

/-- Modelled from the spec: a deferred: a pending promise to be resolved or
rejected later through `world.resolve`. -/
def deferred (w : world) (queue : Nat) : Nat × world :=
  w.fresh queue resolution.pending

/-- Modelled from the spec: "`.then(f)` — on fulfillment, post a task to the
promise's queue that calls f(values); the new promise resolves to f's return
value". The continuation is never called here. -/
def then_ (w : world) (p : Nat) (label : Nat) (c : continuation) : Nat × world :=
  let queue : Nat :=
    match w.promises p with
    | some s => s.queue
    | none => 0
  let r := w.fresh queue resolution.pending
  (r.1, r.2.subscribe p (waiter.call label c r.1))

/-- Modelled from the spec: run one task fetched from a queue. The call of a
continuation goes through the tuple adaptation; its return value resolves the new promise, a returned
promise is flattened ("the resulting promise resolves to the inner's
resolution"). -/
def world.execute (w : world) (queue : Nat) : task → world
  | task.settle target r => w.resolve target r
  | task.invoke label c values target =>
    match adapt c.params values with
    | none => w.resolve target (resolution.rejected error.type_error)
    | some args =>
      let w := { w with calls := w.calls ++ [⟨label, queue, args⟩] }
      match c.body args with
      | outcome.value v => w.resolve target (resolution.fulfilled [v])
      | outcome.nothing => w.resolve target (resolution.fulfilled [])
      | outcome.promise_with inner_queue inner_values =>
        let r := with_ w inner_queue inner_values
        r.2.subscribe r.1 (waiter.forward target)
      | outcome.promise id => w.subscribe id (waiter.forward target)
      | outcome.raise e => w.resolve target (resolution.rejected e)

/-- Modelled from the spec: the worker: it "repeatedly fetches a task ... and
executes it", in posting order, which keeps every queue FIFO; it stops when no
task is left or after `fuel` tasks. -/
def run : Nat → world → world
  | 0, w => w
  | fuel + 1, w =>
    match w.tasks with
    | [] => w
    | (queue, t) :: rest => run fuel (world.execute { w with tasks := rest } queue t)

/-- Modelled from the spec: the state of a promise, `none` for an identifier that
names no promise. -/
def world.state (w : world) (id : Nat) : Option resolution :=
  (w.promises id).map shared_state.state

/-- A parameter of type `int` or `long`. -/
def is_int : value → Bool
  | value.int _ => true
  | _ => false

/-- A parameter of type `std::string`. -/
def is_str : value → Bool
  | value.str _ => true
  | _ => false

/-- The character `s[ i ]` of a string, as an `int`. -/
def char_at (s : List Int) (i : Nat) : Int := s.getD i 0

/-- The body shared by the first lambdas of `then.cpp`:
`( s[ 0 ] - s[ 1 ] ) * i`. -/
def difference_times (i : Int) (s : List Int) : Int := (char_at s 0 - char_at s 1) * i

/-- The string "hello". -/
def hello : List Int := [104, 101, 108, 108, 111]

/-- Modelled from the spec: the outcome of a continuation that returns a value or
nothing (`void`). -/
def returning : Option value → outcome
  | some v => outcome.value v
  | none => outcome.nothing

/-- Modelled from the spec: a continuation declared with `n` parameters: it
receives the unpacked values and returns what `f` gives for them. -/
def of_values (params : List (value → Bool)) (f : List value → outcome) : continuation :=
  { params := params.map param.single,
    body := fun a =>
      match a with
      | arguments.unpacked values => f values
      | arguments.whole _ => outcome.raise error.type_error }

/-- Modelled from the spec: a continuation declared with a single tuple parameter:
it receives the whole tuple, takes its components out and returns what `f` gives
for them. -/
def of_tuple (accepts : List value → Bool) (f : List value → outcome) : continuation :=
  { params := [param.tuple accepts],
    body := fun a =>
      match a with
      | arguments.whole tuple => f tuple
      | arguments.unpacked _ => outcome.raise error.type_error }

/-- Apply a function of `( int i, std::string s )` to a list of two values. -/
def on_int_string (f : Int → List Int → outcome) : List value → outcome
  | [value.int i, value.str s] => f i s
  | _ => outcome.raise error.type_error

/-- Whether a tuple is a `std::tuple< int, std::string >`. -/
def is_int_string : List value → Bool
  | [value.int _, value.str _] => true
  | _ => false

/-- A continuation declared with the single parameter
`( std::tuple< int, std::string >&& values )`: it takes the two components out
with `std::get` and returns what `f` gives. -/
def of_int_string_tuple (f : Int → List Int → outcome) : continuation :=
  of_tuple is_int_string (on_int_string f)

/-- A continuation declared with the single parameter `( long value )`. -/
def of_long (g : Int → outcome) : continuation :=
  of_values [is_int] (fun values =>
    match values with
    | [value.int v] => g v
    | _ => outcome.raise error.type_error)

/-- The chain `p.then( f ).then( g )` on a promise `p` of a runtime `w`, before
the worker runs: the continuations carry the labels 1 and 2. -/
def chain_built (w : world) (p : Nat) (f g : continuation) : world :=
  let b := then_ w p 1 f
  (then_ b.2 b.1 2 g).2

/-- The chain `p.then( f ).then( g )`, run by the worker. -/
def chain_from (w : world) (p : Nat) (f g : continuation) (fuel : Nat) : world :=
  run fuel (chain_built w p f g)

/-- The runtime after `with( queue, 17, "hello" )` on queue 5: promise 0 is
fulfilled with the two values, no task is posted. -/
def sample_world : world := (with_ world.empty 5 [value.int 17, value.str hello]).2

/-- The shared state of promise 0 of `sample_world`. -/
def sample_state : shared_state :=
  { queue := 5, state := resolution.fulfilled [value.int 17, value.str hello], waiters := [] }

/-- The last lambda of the tests, `[ ]( long value ) { EXPECT_EQ( 3 * 17, value ); }`:
it returns nothing; the spy records the value it is called with. -/
def expect_value : continuation := of_long (fun _ => outcome.nothing)

/-- The function `( s[ 0 ] - s[ 1 ] ) * i` on the arguments of a continuation, in
either form. -/
def sample_u : arguments → value
  | arguments.unpacked [value.int i, value.str s] => value.int (difference_times i s)
  | arguments.whole [value.int i, value.str s] => value.int (difference_times i s)
  | _ => value.int 0

/-- The function `( s[ 0 ] - s[ 1 ] ) * i` on a list of two values. -/
def sample_f : List value → value
  | [value.int i, value.str s] => value.int (difference_times i s)
  | _ => value.int 0

end q

/-! # Theorems -/

namespace q
namespace io

/-! ## Theorems: socket helpers -/

/-- C10: for every return value and errno of the OS connect call, the helper
`connect` answers `(true, 0)` exactly when the call returned 0 or returned -1
with errno `EINPROGRESS`, and `(false, errno)` in every other case; a success
always carries the error code 0. -/
theorem connect_result (EINPROGRESS : Int) (os_connect : Nat → sockaddr → Int × Int)
    (socket : Nat) (addr : sockaddr) :
    (connect EINPROGRESS os_connect socket addr = (true, 0) ↔
      ((os_connect socket addr).1 = 0 ∨
        ((os_connect socket addr).1 = -1 ∧ (os_connect socket addr).2 = EINPROGRESS))) ∧
    connect EINPROGRESS os_connect socket addr =
      (if (os_connect socket addr).1 = 0 ∨
          ((os_connect socket addr).1 = -1 ∧ (os_connect socket addr).2 = EINPROGRESS)
        then (true, 0) else (false, (os_connect socket addr).2)) ∧
    ((connect EINPROGRESS os_connect socket addr).1 = true ↔
      (connect EINPROGRESS os_connect socket addr).2 = 0 ∧
        ((os_connect socket addr).1 = 0 ∨
          ((os_connect socket addr).1 = -1 ∧ (os_connect socket addr).2 = EINPROGRESS))) := by
  unfold connect
  generalize os_connect socket addr = r
  obtain ⟨ret, e⟩ := r
  by_cases h0 : ret = 0
  · simp [h0]
  · by_cases h1 : ret = -1
    · by_cases h2 : e = EINPROGRESS
      · simp [h1, h2]
      · simp [h1, h2]
    · simp [h0, h1]

/-! ## Theorems: the receiver -/

theorem size_sub_one (h : Nat) (h1 : 1 ≤ h) (h2 : h < SIZE_MOD) : size_sub h 1 = h - 1 := by
  unfold size_sub
  have h3 : (1 : Nat) % SIZE_MOD = 1 := by decide
  have h4 : h + SIZE_MOD - 1 = (h - 1) + SIZE_MOD := by omega
  rw [Nat.mod_eq_of_lt h2, h3, h4, Nat.add_mod_right, Nat.mod_eq_of_lt (by omega)]

theorem construct_high_water (user_queue port : Nat) (options : udp_receive_options) :
    (pimpl.construct user_queue port options).ch.high_water =
      (match options.backlog with
        | some b => max (b.get % SIZE_MOD) 1
        | none => SIZE_MAX) := by
  obtain ⟨bt, bf, bl⟩ := options
  cases bl <;> rfl

theorem construct_low_water (user_queue port : Nat) (options : udp_receive_options) :
    (pimpl.construct user_queue port options).ch.low_water =
      size_sub (pimpl.construct user_queue port options).ch.high_water 1 := by
  obtain ⟨bt, bf, bl⟩ := options
  cases bl <;> rfl

theorem construct_high_water_bounds (user_queue port : Nat) (options : udp_receive_options) :
    1 ≤ (pimpl.construct user_queue port options).ch.high_water ∧
    (pimpl.construct user_queue port options).ch.high_water < SIZE_MOD := by
  rw [construct_high_water]
  obtain ⟨bt, bf, bl⟩ := options
  cases bl with
  | none => exact ⟨show 1 ≤ SIZE_MAX by decide, show SIZE_MAX < SIZE_MOD by decide⟩
  | some b =>
    have hlt : b.get % SIZE_MOD < SIZE_MOD := Nat.mod_lt _ (by decide)
    exact ⟨le_max_right _ _, max_lt hlt (by decide)⟩

/-- C9: `construct` makes the channel with buffer limit `max(backlog, 1)` (the
backlog as a `std::size_t`) when a backlog option is given and the largest
`std::size_t` otherwise, and with resume threshold one below the limit, computed
without wrap-around: the limit is at least 1 and the threshold is below it
(backlog 0 gives 1 and 0, backlog 2 gives 2 and 1); `is_infinite_` is true exactly
when no backlog option is given or the backlog is infinity. -/
theorem construct_limits (user_queue port : Nat) (options : udp_receive_options) :
    (pimpl.construct user_queue port options).ch.high_water =
      (match options.backlog with
        | some b => max (b.get % SIZE_MOD) 1
        | none => SIZE_MAX) ∧
    (pimpl.construct user_queue port options).ch.low_water =
      (pimpl.construct user_queue port options).ch.high_water - 1 ∧
    1 ≤ (pimpl.construct user_queue port options).ch.high_water ∧
    (pimpl.construct user_queue port options).ch.high_water ≤ SIZE_MAX ∧
    (pimpl.construct user_queue port options).ch.low_water <
      (pimpl.construct user_queue port options).ch.high_water ∧
    ((pimpl.construct user_queue port options).is_infinite_ = true ↔
      (options.backlog = none ∨ ∃ b, options.backlog = some b ∧ b.is_infinity = true)) ∧
    (pimpl.construct user_queue port
        { options with backlog := some ⟨0, false⟩ }).ch.high_water = 1 ∧
    (pimpl.construct user_queue port
        { options with backlog := some ⟨0, false⟩ }).ch.low_water = 0 ∧
    (pimpl.construct user_queue port
        { options with backlog := some ⟨2, false⟩ }).ch.high_water = 2 ∧
    (pimpl.construct user_queue port
        { options with backlog := some ⟨2, false⟩ }).ch.low_water = 1 := by
  obtain ⟨hb1, hb2⟩ := construct_high_water_bounds user_queue port options
  have hl := construct_low_water user_queue port options
  rw [size_sub_one _ hb1 hb2] at hl
  refine ⟨construct_high_water _ _ _, hl, hb1, ?_, ?_, ?_, ?_, ?_, ?_, ?_⟩
  · unfold SIZE_MAX; omega
  · omega
  · obtain ⟨bt, bf, bl⟩ := options
    cases bl <;> simp [pimpl.construct]
  · rfl
  · show size_sub 1 1 = 0
    decide
  · rfl
  · show size_sub 2 1 = 1
    decide

theorem accepted_push (ch : channel) (v : udp_packet) (h : ch.closed = false) :
    (ch.push v).accepted.length = ch.accepted.length + 1 ∧ v ∈ (ch.push v).accepted := by
  unfold channel.push channel.accepted
  by_cases hw : 0 < ch.waiting_readers
  · simp [h, hw]
    omega
  · simp [h, hw]
    omega

/-- The state the read callback leaves behind for a datagram with a source
address, on a receiver whose writable end is the channel. -/
theorem read_cb_addr (p : pimpl) (nread : Int) (buf : uv_buf_t) (addr : sockaddr)
    (flags : Nat) (hdata : p.udp_data = true) (hend : p.writable_in_ = end_ref.channel) :
    p.read_cb nread buf (some addr) flags = some
      { p with
        ch :=
          if p.ch.should_write && !p.is_infinite_ &&
              !(p.ch.push (make_packet nread buf addr)).should_write then
            (p.ch.push (make_packet nread buf addr)).set_resume_notification
              resume_callback.restart_read true
          else p.ch.push (make_packet nread buf addr),
        trace := p.trace ++ [call.write (make_packet nread buf addr)] ++
          (if p.ch.should_write && !p.is_infinite_ then [call.should_write] else []) ++
          (if !p.ch.should_write || (!p.is_infinite_ &&
              !(p.ch.push (make_packet nread buf addr)).should_write)
            then [call.uv_udp_recv_stop] else []) ++
          (if p.ch.should_write && !p.is_infinite_ &&
              !(p.ch.push (make_packet nread buf addr)).should_write
            then [call.set_resume_notification resume_callback.restart_read true] else []) } := by
  cases hok : p.ch.should_write <;> cases hinf : p.is_infinite_ <;>
    cases hsw : (p.ch.push (make_packet nread buf addr)).should_write <;>
    simp [pimpl.read_cb, hdata, hend, channel.write, hok, hinf, hsw, pimpl.emit, pimpl.stop_read]

/-- C5: on a receiver with its `udp_.data` reference, the read callback called
with a null source address writes no packet and leaves the channel as it is,
whatever the writable end; called with a source address, on a receiver whose
writable end is the channel, it makes exactly one `write` call, with the packet
built from the datagram, for every `nread` and whatever `should_write( )`
answers, and an open channel holds exactly that one packet more afterwards. -/
theorem read_cb_writes_one_packet (p : pimpl) (nread : Int) (buf : uv_buf_t)
    (addr : sockaddr) (flags : Nat)
    (hdata : p.udp_data = true) :
    (p.writable_in_ = end_ref.channel →
      ∃ p1, p.read_cb nread buf (some addr) flags = some p1 ∧
        written p1.trace = written p.trace ++ [make_packet nread buf addr] ∧
        (p.ch.closed = false →
          p1.ch.accepted.length = p.ch.accepted.length + 1 ∧
          make_packet nread buf addr ∈ p1.ch.accepted)) ∧
    (∃ p0, p.read_cb nread buf none flags = some p0 ∧
      written p0.trace = written p.trace ∧ p0.ch = p.ch) := by
  constructor
  · intro hend
    refine ⟨_, read_cb_addr p nread buf addr flags hdata hend, ?_, ?_⟩
    · cases p.ch.should_write <;> cases p.is_infinite_ <;>
        cases (p.ch.push (make_packet nread buf addr)).should_write <;> simp [written]
    · intro hopen
      have hacc := accepted_push p.ch (make_packet nread buf addr) hopen
      cases p.ch.should_write <;> cases p.is_infinite_ <;>
        cases (p.ch.push (make_packet nread buf addr)).should_write <;>
        simpa [channel.set_resume_notification, channel.accepted] using hacc
  · cases hb : buf.base with
    | none => exact ⟨p, by simp [pimpl.read_cb, hdata, hb], rfl, rfl⟩
    | some m =>
      exact ⟨p.emit call.delete_buffer, by simp [pimpl.read_cb, hdata, hb],
        by simp [pimpl.emit, written], rfl⟩


/-- C8: the packet the read callback writes for a datagram with a source address
carries the error `udp_packet_error` exactly when `nread < 0`; for `nread = 0`
its payload is a fulfilled empty block; for `nread > 0` it is a fulfilled block
of the first `nread` bytes of the receive buffer (of size `nread` when the buffer
holds that many); its source address is converted from `addr` and its flags field
is 0. -/
theorem read_cb_packet_construction (p : pimpl) (nread : Int) (buf : uv_buf_t)
    (addr : sockaddr) (flags : Nat)
    (hdata : p.udp_data = true) (hend : p.writable_in_ = end_ref.channel) :
    ∃ p1 packet, p.read_cb nread buf (some addr) flags = some p1 ∧
      written p1.trace = written p.trace ++ [packet] ∧
      (packet.payload.has_exception = true ↔ nread < 0) ∧
      (packet.payload = expect.refuse exception_ptr.udp_packet_error ↔ nread < 0) ∧
      (nread = 0 → packet.payload = expect.fulfill byte_block.empty ∧
        byte_block.empty.bytes = []) ∧
      (0 < nread → ∃ b, packet.payload = expect.fulfill b ∧
        b.bytes = (buf.base.getD []).take nread.toNat ∧
        (nread.toNat ≤ (buf.base.getD []).length → (b.size : Int) = nread)) ∧
      packet.source_address = ip_address.from addr ∧
      packet.flags = 0 := by
  refine ⟨_, make_packet nread buf addr, read_cb_addr p nread buf addr flags hdata hend,
    ?_, ?_, ?_, ?_, ?_, rfl, rfl⟩
  · cases p.ch.should_write <;> cases p.is_infinite_ <;>
      cases (p.ch.push (make_packet nread buf addr)).should_write <;> simp [written]
  · by_cases h : nread < 0 <;> simp [make_packet, h, expect.has_exception]
  · by_cases h : nread < 0 <;> simp [make_packet, h]
  · intro h
    subst h
    exact ⟨by simp [make_packet], rfl⟩
  · intro h
    have h1 : ¬ nread < 0 := by omega
    have h2 : ¬ nread = 0 := by omega
    refine ⟨byte_block.of nread.toNat (buf.base.getD []), by simp [make_packet, h1, h2], rfl, ?_⟩
    intro hle
    simp only [byte_block.size, byte_block.of, List.length_take]
    omega

/-- The state `close` leaves behind on an open receiver whose writable end is the
channel. -/
theorem close_open (d : defaults) (p : pimpl) (status : expect Unit)
    (hopen : p.closed_ = false) (hend : p.writable_in_ = end_ref.channel) :
    pimpl.close d p status = some
      { p with
        closed_ := true,
        writable_in_ := end_ref.null,
        ch :=
          if d.stop_read_reschedule then
            ((p.ch.unset_resume_notification).close status.exception).set_resume_notification
              resume_callback.restart_read true
          else (p.ch.unset_resume_notification).close status.exception,
        trace := p.trace ++
          [call.unset_resume_notification, call.close status.exception,
            call.uv_udp_recv_stop] ++
          (if d.stop_read_reschedule
            then [call.set_resume_notification resume_callback.restart_read true] else []) ++
          [call.uv_close] } := by
  cases hs : status <;> cases hr : d.stop_read_reschedule <;>
    simp [pimpl.close, hopen, hend, expect.has_exception, expect.exception, pimpl.emit,
      pimpl.stop_read, hr]

theorem close_closed (d : defaults) (p : pimpl) (status : expect Unit)
    (hclosed : p.closed_ = true) : pimpl.close d p status = some p := by
  simp [pimpl.close, hclosed]

theorem close_sets_closed (d : defaults) (p p1 : pimpl) (status : expect Unit)
    (h : pimpl.close d p status = some p1) : p1.closed_ = true := by
  cases hc : p.closed_
  · cases hw : p.writable_in_ <;> cases status <;> cases hr : d.stop_read_reschedule <;>
      simp [pimpl.close, hc, hw, expect.has_exception, expect.exception, pimpl.emit,
        pimpl.stop_read, hr] at h <;> subst h <;> rfl
  · rw [close_closed d p status hc] at h
    cases h
    exact hc

theorem run_close_closed (d : defaults) (p : pimpl) (hclosed : p.closed_ = true)
    (later : List (expect Unit)) : pimpl.run d p (later.map op.close) = some p := by
  induction later with
  | nil => rfl
  | cons s ss ih => simp [pimpl.run, pimpl.step, close_closed d p s hclosed, ih]


theorem close_keeps_invariant (d : defaults) (p p1 : pimpl) (status : expect Unit)
    (h : pimpl.close d p status = some p1) (hi : close_invariant p) : close_invariant p1 := by
  unfold close_invariant at *
  cases hc : p.closed_
  · rw [hc] at hi
    cases hw : p.writable_in_ <;> cases status <;> cases hr : d.stop_read_reschedule <;>
      simp [pimpl.close, hc, hw, expect.has_exception, expect.exception, pimpl.emit,
        pimpl.stop_read, hr] at h <;> subst h <;>
      simp [uv_close_count] at hi ⊢ <;> simp [hi]
  · rw [close_closed d p status hc] at h
    cases h
    exact hi

theorem step_keeps_invariant (d : defaults) (p p1 : pimpl) (o : op)
    (h : pimpl.step d p o = some p1) (hi : close_invariant p) : close_invariant p1 := by
  cases o with
  | attach_dispatcher =>
    simp only [pimpl.step, pimpl.attach_dispatcher] at h
    cases ho : p.construction_options_ <;> simp [ho] at h
    subst h
    simpa [close_invariant, pimpl.start_read, pimpl.emit, uv_close_count] using hi
  | close status => exact close_keeps_invariant d p p1 status h hi
  | read_cb nread buf addr flags =>
    cases addr with
    | none =>
      cases hd : p.udp_data <;> cases hb : buf.base <;>
        simp [pimpl.step, pimpl.read_cb, hd, hb] at h <;> subst h
      · exact hi
      · simpa [close_invariant, pimpl.emit, uv_close_count] using hi
    | some a =>
      cases hd : p.udp_data
      · simp [pimpl.step, pimpl.read_cb, hd] at h
      · cases hw : p.writable_in_
        · simp [pimpl.step, pimpl.read_cb, hd, hw] at h
        · rw [pimpl.step, read_cb_addr p nread buf a flags hd hw] at h
          cases h
          cases p.ch.should_write <;> cases p.is_infinite_ <;>
            cases (p.ch.push (make_packet nread buf a)).should_write <;>
            simpa [close_invariant, uv_close_count] using hi
        · simp [pimpl.step, pimpl.read_cb, hd, hw] at h
  | detach =>
    cases hdet : p.detached_ <;> cases hr : p.readable_in_ <;>
      simp [pimpl.step, pimpl.detach, hdet, hr] at h <;> subst h <;>
      first
        | exact hi
        | simpa [close_invariant, pimpl.emit, uv_close_count] using hi
  | scope =>
    simp only [pimpl.step, pimpl.scope] at h
    exact close_keeps_invariant d _ p1 _ h hi
  | resume cb =>
    cases cb
    simp [pimpl.step, pimpl.resume, pimpl.start_read, pimpl.emit] at h
    subst h
    simpa [close_invariant, uv_close_count] using hi
  | closer =>
    simp [pimpl.step, pimpl.closer] at h
    subst h
    exact hi

theorem run_keeps_invariant (d : defaults) (ops : List op) (p p1 : pimpl)
    (h : pimpl.run d p ops = some p1) (hi : close_invariant p) : close_invariant p1 := by
  induction ops generalizing p with
  | nil =>
    simp [pimpl.run] at h
    subst h
    exact hi
  | cons o os ih =>
    cases hs : pimpl.step d p o with
    | none => simp [pimpl.run, hs] at h
    | some p2 =>
      simp [pimpl.run, hs] at h
      exact ih p2 h (step_keeps_invariant d p p2 o hs hi)

/-- C6: on an open receiver whose writable end is the channel, the first `close`
closes the channel, stops OS reads, resets the writable end and calls `uv_close`
once; every later `close`, with any status, returns that same state, so a
sequence of one or more `close` calls ends in the state of the first. For every
receiver, a `close` that returns leaves a state that later `close` calls do not
change, and along every sequence of operations on a constructed receiver
`uv_close` has been called once if the receiver is closed and never otherwise. -/
theorem close_idempotent (d : defaults) (p : pimpl) (status : expect Unit)
    (later : List (expect Unit))
    (hopen : p.closed_ = false) (hend : p.writable_in_ = end_ref.channel) :
    ∃ p1, pimpl.close d p status = some p1 ∧
      p1.closed_ = true ∧ p1.ch.closed = true ∧ p1.writable_in_ = end_ref.null ∧
      receiving p1.trace = false ∧
      uv_close_count p1.trace = uv_close_count p.trace + 1 ∧
      (∀ s, pimpl.close d p1 s = some p1) ∧
      pimpl.run d p (op.close status :: later.map op.close) = some p1 ∧
      (∀ r r1 s, pimpl.close d r s = some r1 → ∀ s1, pimpl.close d r1 s1 = some r1) ∧
      (∀ user_queue port options ops r,
        pimpl.run d (pimpl.construct user_queue port options) ops = some r →
          uv_close_count r.trace = if r.closed_ then 1 else 0) := by
  refine ⟨_, close_open d p status hopen hend, rfl, ?_, rfl, ?_, ?_, ?_, ?_, ?_, ?_⟩
  · cases d.stop_read_reschedule <;> cases hcl : p.ch.closed <;>
      simp [channel.close, channel.unset_resume_notification, channel.set_resume_notification,
        hcl]
  · cases d.stop_read_reschedule <;> simp [receiving]
  · cases d.stop_read_reschedule <;> simp [uv_close_count]
  · intro s
    exact close_closed d _ s rfl
  · simp only [pimpl.run, pimpl.step, close_open d p status hopen hend]
    exact run_close_closed d _ rfl later
  · intro r r1 s hr s1
    exact close_closed d r1 s1 (close_sets_closed d r r1 s hr)
  · intro user_queue port options ops r hr
    exact run_keeps_invariant d ops _ r hr rfl


/-- The state `detach` leaves behind on a receiver that is not yet detached and
whose readable end is the channel. -/
theorem detach_first (p : pimpl) (hdet : p.detached_ = false)
    (hread : p.readable_in_ = end_ref.channel) :
    p.detach = some
      { p with
        detached_ := true,
        ch := p.ch.add_scope_until_closed scoped_function.detach_scope,
        trace := p.trace ++ [call.add_scope_until_closed scoped_function.detach_scope] } := by
  simp [pimpl.detach, hdet, hread, pimpl.emit]

/-- C7: on an open, not yet detached receiver with both ends on the channel,
`detach` followed by `close` leaves the closed flag set, the channel closed with
the same error, OS reads stopped and one more `uv_close` than before, exactly as
`close` alone; the two states differ only in the detached flag, the scope kept by
the channel and the record of its registration. The scope function, when run
afterwards, only replaces the two ends: its `close( )` changes nothing. A second
`detach` registers nothing more. -/
theorem detach_then_close (d : defaults) (p : pimpl) (status : expect Unit)
    (hopen : p.closed_ = false) (hdet : p.detached_ = false)
    (hread : p.readable_in_ = end_ref.channel) (hend : p.writable_in_ = end_ref.channel) :
    ∃ pd a b, p.detach = some pd ∧ pimpl.close d pd status = some a ∧
      pimpl.close d p status = some b ∧
      a.closed_ = true ∧ b.closed_ = true ∧
      a.ch.closed = true ∧ b.ch.closed = true ∧
      a.ch.close_error = b.ch.close_error ∧
      a.ch.resume = b.ch.resume ∧
      a.ch.accepted = b.ch.accepted ∧
      a.writable_in_ = b.writable_in_ ∧ a.readable_in_ = b.readable_in_ ∧
      receiving a.trace = false ∧ receiving b.trace = false ∧
      uv_close_count a.trace = uv_close_count p.trace + 1 ∧
      uv_close_count b.trace = uv_close_count p.trace + 1 ∧
      { a with detached_ := b.detached_, trace := b.trace,
               ch := { a.ch with scopes := b.ch.scopes } } = b ∧
      a.trace.filter (fun c => decide (c ≠ call.add_scope_until_closed
          scoped_function.detach_scope)) =
        b.trace.filter (fun c => decide (c ≠ call.add_scope_until_closed
          scoped_function.detach_scope)) ∧
      pimpl.scope d a =
        some { a with writable_in_ := end_ref.fresh, readable_in_ := end_ref.fresh } ∧
      pimpl.close d a d.close_status = some a ∧
      pd.detach = some pd ∧
      registrations pd.trace = registrations p.trace ++
        [call.add_scope_until_closed scoped_function.detach_scope] ∧
      a.detach = some a := by
  refine ⟨_, _, _, detach_first p hdet hread, close_open d _ status hopen hend,
    close_open d p status hopen hend, rfl, rfl, ?_, ?_, ?_, ?_, ?_, rfl, rfl, ?_, ?_, ?_, ?_,
    ?_, ?_, ?_, ?_, ?_, ?_, ?_⟩
  · cases d.stop_read_reschedule <;> cases hcl : p.ch.closed <;>
      simp [channel.close, channel.unset_resume_notification, channel.set_resume_notification,
        channel.add_scope_until_closed, hcl]
  · cases d.stop_read_reschedule <;> cases hcl : p.ch.closed <;>
      simp [channel.close, channel.unset_resume_notification, channel.set_resume_notification,
        hcl]
  · cases d.stop_read_reschedule <;> cases hcl : p.ch.closed <;>
      simp [channel.close, channel.unset_resume_notification, channel.set_resume_notification,
        channel.add_scope_until_closed, hcl]
  · cases d.stop_read_reschedule <;> cases hcl : p.ch.closed <;>
      simp [channel.close, channel.unset_resume_notification, channel.set_resume_notification,
        channel.add_scope_until_closed, hcl]
  · cases d.stop_read_reschedule <;> cases hcl : p.ch.closed <;>
      simp [channel.close, channel.unset_resume_notification, channel.set_resume_notification,
        channel.add_scope_until_closed, channel.accepted, hcl]
  · cases d.stop_read_reschedule <;> simp [receiving]
  · cases d.stop_read_reschedule <;> simp [receiving]
  · cases d.stop_read_reschedule <;> simp [uv_close_count]
  · cases d.stop_read_reschedule <;> simp [uv_close_count]
  · cases d.stop_read_reschedule <;> cases hcl : p.ch.closed <;>
      simp [channel.close, channel.unset_resume_notification, channel.set_resume_notification,
        channel.add_scope_until_closed, hcl, hdet]
  · cases d.stop_read_reschedule <;> simp [List.filter_append, List.filter]
  · simp [pimpl.scope, pimpl.close]
  · exact close_closed d _ _ rfl
  · simp [pimpl.detach]
  · simp [registrations]
  · simp [pimpl.detach]
/-- Instance of the one-packet theorem on `sample_receiver`. -/
theorem read_cb_writes_one_packet_witness :
    (∃ p1, sample_receiver.read_cb (-1) sample_buf (some sample_addr) 0 = some p1 ∧
      written p1.trace = [make_packet (-1) sample_buf sample_addr] ∧
      p1.ch.accepted.length = 1) ∧
    (∃ p0, sample_receiver.read_cb (-1) sample_buf none 0 = some p0 ∧
      written p0.trace = [] ∧ p0.ch = sample_receiver.ch) := by
  obtain ⟨h1, h0⟩ :=
    read_cb_writes_one_packet sample_receiver (-1) sample_buf sample_addr 0 (by decide)
  obtain ⟨p1, h, hw, hacc⟩ := h1 (by decide)
  exact ⟨⟨p1, h, hw, (hacc (by decide)).1⟩, h0⟩

/-- Instance of the packet construction theorem on `sample_receiver` with three
bytes read. -/
theorem read_cb_packet_construction_witness :
    ∃ p1 packet, sample_receiver.read_cb 3 sample_buf (some sample_addr) 0 = some p1 ∧
      written p1.trace = [packet] ∧
      packet.payload = expect.fulfill ⟨[10, 20, 30]⟩ ∧
      packet.source_address = ⟨7⟩ ∧ packet.flags = 0 := by
  obtain ⟨p1, packet, h, hw, _, _, _, hpos, ha, hf⟩ :=
    read_cb_packet_construction sample_receiver 3 sample_buf sample_addr 0
      (by decide) (by decide)
  obtain ⟨b, hb, hbytes, _⟩ := hpos (by decide)
  refine ⟨p1, packet, h, hw, ?_, ha, hf⟩
  rw [hb]
  cases b
  simp only at hbytes
  rw [hbytes]
  rfl

/-- Instance of the close theorem on `sample_receiver`: three calls of `close`
leave the state of the first, with one `uv_close`. -/
theorem close_idempotent_witness :
    ∃ p1, pimpl.close sample_defaults sample_receiver (expect.fulfill ()) = some p1 ∧
      uv_close_count p1.trace = 1 ∧
      pimpl.run sample_defaults sample_receiver
        [op.close (expect.fulfill ()), op.close (expect.refuse exception_ptr.udp_packet_error),
          op.close (expect.fulfill ())] = some p1 := by
  obtain ⟨p1, h, _, _, _, _, hc, _, hrun, _, _⟩ :=
    close_idempotent sample_defaults sample_receiver (expect.fulfill ())
      [expect.refuse exception_ptr.udp_packet_error, expect.fulfill ()] (by decide) (by decide)
  exact ⟨p1, h, hc, hrun⟩

/-- Instance of the detach theorem on `sample_receiver`. -/
theorem detach_then_close_witness :
    ∃ pd a b, sample_receiver.detach = some pd ∧
      pimpl.close sample_defaults pd (expect.fulfill ()) = some a ∧
      pimpl.close sample_defaults sample_receiver (expect.fulfill ()) = some b ∧
      a.ch.closed = b.ch.closed ∧ uv_close_count a.trace = 1 ∧
      uv_close_count b.trace = 1 := by
  obtain ⟨pd, a, b, h1, h2, h3, _, _, ha, hb, _, _, _, _, _, _, _, hca, hcb, _⟩ :=
    detach_then_close sample_defaults sample_receiver (expect.fulfill ())
      (by decide) (by decide) (by decide) (by decide)
  exact ⟨pd, a, b, h1, h2, h3, ha.trans hb.symm, hca, hcb⟩

end io
end q

/-! ## Theorems: promise chains -/

namespace q

theorem run_idle (fuel : Nat) (w : world) (h : w.tasks = []) : run fuel w = w := by
  cases fuel with
  | zero => rfl
  | succ n => simp [run, h]

/-- A chain on a fulfilled promise whose first continuation returns a value: both
continuations are called once, in order, and the chain comes to rest. -/
theorem chain_from_value (w : world) (p : Nat) (sp : shared_state) (values : List value)
    (f g : continuation) (fargs gargs : arguments) (r : value) (gr : Option value)
    (fuel : Nat)
    (hidle : w.tasks = []) (hp : w.promises p = some sp)
    (hstate : sp.state = resolution.fulfilled values) (hlt : p < w.next)
    (hf : adapt f.params values = some fargs) (hfb : f.body fargs = outcome.value r)
    (hg : adapt g.params [r] = some gargs) (hgb : g.body gargs = returning gr) :
    (chain_from w p f g (fuel + 2)).calls =
      w.calls ++ [⟨1, sp.queue, fargs⟩, ⟨2, sp.queue, gargs⟩] ∧
    (chain_from w p f g (fuel + 2)).tasks = [] ∧
    (chain_from w p f g (fuel + 2)).state w.next = some (resolution.fulfilled [r]) ∧
    (chain_from w p f g (fuel + 2)).state (w.next + 1) =
      some (resolution.fulfilled gr.toList) := by
  obtain ⟨qp, st, ws⟩ := sp
  simp only at hstate
  subst hstate
  have h1 : p ≠ w.next := by omega
  have h2 : p ≠ w.next + 1 := by omega
  cases gr <;>
    simp [chain_from, chain_built, then_, world.fresh, world.store, world.subscribe, run,
      world.execute, world.resolve, world.notify, world.post, world.state, waiter.task,
      returning, run_idle, hidle, hp, h1, h2, hf, hfb, hg, hgb]

/-- A chain on a fulfilled promise whose first continuation returns the promise
`with( queue, r )`: the promise is flattened, both continuations are called once,
in order, and the chain comes to rest. -/
theorem chain_from_promise (w : world) (p : Nat) (sp : shared_state) (values : List value)
    (f g : continuation) (fargs gargs : arguments) (inner_queue : Nat) (r : value)
    (gr : Option value) (fuel : Nat)
    (hidle : w.tasks = []) (hp : w.promises p = some sp)
    (hstate : sp.state = resolution.fulfilled values) (hlt : p < w.next)
    (hf : adapt f.params values = some fargs)
    (hfb : f.body fargs = outcome.promise_with inner_queue [r])
    (hg : adapt g.params [r] = some gargs) (hgb : g.body gargs = returning gr) :
    (chain_from w p f g (fuel + 3)).calls =
      w.calls ++ [⟨1, sp.queue, fargs⟩, ⟨2, sp.queue, gargs⟩] ∧
    (chain_from w p f g (fuel + 3)).tasks = [] ∧
    (chain_from w p f g (fuel + 3)).state w.next = some (resolution.fulfilled [r]) ∧
    (chain_from w p f g (fuel + 3)).state (w.next + 1) =
      some (resolution.fulfilled gr.toList) := by
  obtain ⟨qp, st, ws⟩ := sp
  simp only at hstate
  subst hstate
  have h1 : p ≠ w.next := by omega
  have h2 : p ≠ w.next + 1 := by omega
  have h3 : p ≠ w.next + 1 + 1 := by omega
  have n1 : w.next ≠ w.next + 1 + 1 := by omega
  have n2 : w.next + 1 ≠ w.next + 1 + 1 := by omega
  cases gr <;>
    simp [chain_from, chain_built, then_, with_, world.fresh, world.store, world.subscribe, run,
      world.execute, world.resolve, world.notify, world.post, world.state, waiter.task,
      returning, run_idle, hidle, hp, h1, h2, h3, n1, n2, hf, hfb, hg, hgb]

theorem adapt_of_values (params : List (value → Bool)) (values : List value)
    (h : convertible_all (params.map param.single) values = true) :
    adapt (params.map param.single) values = some (arguments.unpacked values) := by
  simp [adapt, h]

theorem convertible_all_tuple (accepts : List value → Bool) (values : List value) :
    convertible_all [param.tuple accepts] values = false := by
  cases values with
  | nil => rfl
  | cons v vs => simp [convertible_all, param.convertible]

theorem adapt_of_tuple (accepts : List value → Bool) (values : List value)
    (h : accepts values = true) :
    adapt [param.tuple accepts] values = some (arguments.whole values) := by
  simp [adapt, convertible_all_tuple, h]

/-- C2: for every fulfilled promise carrying `values`, in a runtime without posted
tasks, and every first continuation that returns the promise `with(q, u(v))`,
whether it takes the unpacked values or the whole tuple (`fargs`), the promise
made by `then` resolves with the value `u(v)` itself, and the next continuation is
called with the same value, by the same calls, as when the first continuation
returns `u(v)` directly. -/
theorem then_flattens_promise (w : world) (p : Nat) (sp : shared_state)
    (values : List value) (fparams : List param) (fargs : arguments)
    (u : arguments → value) (inner_queue : Nat)
    (g : continuation) (gargs : arguments) (gr : Option value) (fuel : Nat)
    (hidle : w.tasks = []) (hp : w.promises p = some sp)
    (hstate : sp.state = resolution.fulfilled values) (hlt : p < w.next)
    (hf : adapt fparams values = some fargs)
    (hg : adapt g.params [u fargs] = some gargs) (hgb : g.body gargs = returning gr) :
    (chain_from w p ⟨fparams, fun a => outcome.promise_with inner_queue [u a]⟩ g
        (fuel + 3)).state w.next = some (resolution.fulfilled [u fargs]) ∧
    (chain_from w p ⟨fparams, fun a => outcome.value (u a)⟩ g
        (fuel + 3)).state w.next = some (resolution.fulfilled [u fargs]) ∧
    (chain_from w p ⟨fparams, fun a => outcome.promise_with inner_queue [u a]⟩ g
        (fuel + 3)).calls = w.calls ++ [⟨1, sp.queue, fargs⟩, ⟨2, sp.queue, gargs⟩] ∧
    (chain_from w p ⟨fparams, fun a => outcome.promise_with inner_queue [u a]⟩ g
        (fuel + 3)).calls =
      (chain_from w p ⟨fparams, fun a => outcome.value (u a)⟩ g (fuel + 3)).calls ∧
    (chain_from w p ⟨fparams, fun a => outcome.promise_with inner_queue [u a]⟩ g
        (fuel + 3)).state (w.next + 1) =
      (chain_from w p ⟨fparams, fun a => outcome.value (u a)⟩ g
        (fuel + 3)).state (w.next + 1) ∧
    (chain_from w p ⟨fparams, fun a => outcome.promise_with inner_queue [u a]⟩ g
        (fuel + 3)).tasks = [] ∧
    (chain_from w p ⟨fparams, fun a => outcome.value (u a)⟩ g (fuel + 3)).tasks = [] := by
  have hpr := chain_from_promise w p sp values
    ⟨fparams, fun a => outcome.promise_with inner_queue [u a]⟩ g fargs gargs inner_queue
    (u fargs) gr fuel hidle hp hstate hlt hf rfl hg hgb
  have hva := chain_from_value w p sp values
    ⟨fparams, fun a => outcome.value (u a)⟩ g fargs gargs
    (u fargs) gr (fuel + 1) hidle hp hstate hlt hf rfl hg hgb
  refine ⟨hpr.2.2.1, hva.2.2.1, hpr.1, ?_, ?_, hpr.2.1, hva.2.1⟩
  · rw [hpr.1]
    exact hva.1.symm
  · rw [hpr.2.2.2]
    exact hva.2.2.2.symm

/-- C3: for every fulfilled promise carrying `values`, in a runtime without posted
tasks, and every `f` on these values: the continuation declared with one tuple
parameter is called with the whole tuple, unchanged, the continuation declared
with one parameter per value is called with the unpacked values, and both chains
resolve to the same value `f(values)` and call the next continuation alike. -/
theorem then_tuple_adaptation (w : world) (p : Nat) (sp : shared_state)
    (values : List value) (params : List (value → Bool)) (accepts : List value → Bool)
    (f : List value → value)
    (g : continuation) (gargs : arguments) (gr : Option value) (fuel : Nat)
    (hidle : w.tasks = []) (hp : w.promises p = some sp)
    (hstate : sp.state = resolution.fulfilled values) (hlt : p < w.next)
    (hparams : convertible_all (params.map param.single) values = true)
    (haccepts : accepts values = true)
    (hg : adapt g.params [f values] = some gargs) (hgb : g.body gargs = returning gr) :
    (chain_from w p (of_tuple accepts (fun t => outcome.value (f t))) g
        (fuel + 2)).state w.next = some (resolution.fulfilled [f values]) ∧
    (chain_from w p (of_values params (fun vs => outcome.value (f vs))) g
        (fuel + 2)).state w.next = some (resolution.fulfilled [f values]) ∧
    (chain_from w p (of_tuple accepts (fun t => outcome.value (f t))) g
        (fuel + 2)).calls =
      w.calls ++ [⟨1, sp.queue, arguments.whole values⟩, ⟨2, sp.queue, gargs⟩] ∧
    (chain_from w p (of_values params (fun vs => outcome.value (f vs))) g
        (fuel + 2)).calls =
      w.calls ++ [⟨1, sp.queue, arguments.unpacked values⟩, ⟨2, sp.queue, gargs⟩] ∧
    (chain_from w p (of_tuple accepts (fun t => outcome.value (f t))) g
        (fuel + 2)).state (w.next + 1) =
      (chain_from w p (of_values params (fun vs => outcome.value (f vs))) g
        (fuel + 2)).state (w.next + 1) := by
  have ht := chain_from_value w p sp values
    (of_tuple accepts (fun t => outcome.value (f t))) g (arguments.whole values) gargs
    (f values) gr fuel hidle hp hstate hlt (adapt_of_tuple accepts values haccepts) rfl hg hgb
  have hn := chain_from_value w p sp values
    (of_values params (fun vs => outcome.value (f vs))) g (arguments.unpacked values) gargs
    (f values) gr fuel hidle hp hstate hlt (adapt_of_values params values hparams) rfl hg hgb
  refine ⟨ht.2.2.1, hn.2.2.1, ht.1, hn.1, ?_⟩
  rw [ht.2.2.2]
  exact hn.2.2.2.symm

/-- Instance of the flattening theorem on promise 0 of `sample_world`, with a
first continuation that takes the whole tuple. -/
theorem then_flattens_promise_witness :
    (chain_from sample_world 0
        ⟨[param.tuple is_int_string], fun a => outcome.promise_with 5 [sample_u a]⟩
        expect_value 3).state 1 = some (resolution.fulfilled [value.int 51]) ∧
    (chain_from sample_world 0
        ⟨[param.tuple is_int_string], fun a => outcome.promise_with 5 [sample_u a]⟩
        expect_value 3).calls =
      [⟨1, 5, arguments.whole [value.int 17, value.str hello]⟩,
        ⟨2, 5, arguments.unpacked [value.int 51]⟩] := by
  have h := then_flattens_promise sample_world 0 sample_state
    [value.int 17, value.str hello] [param.tuple is_int_string]
    (arguments.whole [value.int 17, value.str hello]) sample_u 5 expect_value
    (arguments.unpacked [value.int 51]) none 0 rfl rfl rfl (by decide) rfl rfl rfl
  exact ⟨h.1, h.2.2.1⟩

/-- Instance of the tuple adaptation theorem on promise 0 of `sample_world`. -/
theorem then_tuple_adaptation_witness :
    (chain_from sample_world 0 (of_tuple is_int_string (fun t => outcome.value (sample_f t)))
        expect_value 2).state 1 = some (resolution.fulfilled [value.int 51]) ∧
    (chain_from sample_world 0
        (of_values [is_int, is_str] (fun vs => outcome.value (sample_f vs)))
        expect_value 2).state 1 = some (resolution.fulfilled [value.int 51]) ∧
    (chain_from sample_world 0 (of_tuple is_int_string (fun t => outcome.value (sample_f t)))
        expect_value 2).calls =
      [⟨1, 5, arguments.whole [value.int 17, value.str hello]⟩,
        ⟨2, 5, arguments.unpacked [value.int 51]⟩] := by
  have h := then_tuple_adaptation sample_world 0 sample_state
    [value.int 17, value.str hello] [is_int, is_str] is_int_string sample_f expect_value
    (arguments.unpacked [value.int 51]) none 0 rfl rfl rfl (by decide) rfl rfl rfl rfl
  exact ⟨h.1, h.2.1, h.2.2.1⟩

end q
